import Mathlib

/-!
Verification of the sparse Game-of-Life simulation engine in `src/main.cpp`.

The C++ code stores live cells in an `unordered_map<Coord, bool>` whose values
are always `true` (cells are only ever inserted with value `true` and queried by
`count`), so the grid is embedded as a `Finset` of coordinates.  Coordinates are
C `int`s, i.e. 32-bit two's-complement machine integers; their arithmetic is
embedded as integers normalised by `wrap32` (reduction modulo 2^32 into
[-2^31, 2^31)).
-/

/-- Coordinates: `using Coord = std::pair<int, int>;`. -/
abbrev Coord : Type := Int × Int

def INT_MIN : Int := -2147483648

def INT_MAX : Int := 2147483647

/-- Two's-complement wrap of 32-bit `int` arithmetic: reduce modulo 2^32 into
the representable range [-2^31, 2^31). -/
def wrap32 (n : Int) : Int := (n + 2147483648) % 4294967296 - 2147483648

/-- `n` is a representable 32-bit `int` value. -/
abbrev InRangeInt (n : Int) : Prop := INT_MIN ≤ n ∧ n ≤ INT_MAX

/-- Both components of a coordinate are representable `int` values. -/
abbrev InRangeCoord (c : Coord) : Prop := InRangeInt c.1 ∧ InRangeInt c.2

/-- Componentwise `int` addition of an offset to a cell, as in
`{cell.first + offset.first, cell.second + offset.second}`. -/
def addCoord (c o : Coord) : Coord := (wrap32 (c.1 + o.1), wrap32 (c.2 + o.2))

/-- The 8 Moore-neighbourhood offsets (`neighbour_offsets` in the source). -/
def neighbour_offsets : List Coord :=
  [(-1, -1), (0, -1), (1, -1), (-1, 0), (1, 0), (-1, 1), (0, 1), (1, 1)]

/-- `count_active_neighbours`: number of the 8 Moore offsets whose target cell
is present in the grid. -/
def count_active_neighbours (grid : Finset Coord) (cell : Coord) : Nat :=
  (neighbour_offsets.filter (fun o => decide (addCoord cell o ∈ grid))).length

/-- The candidate set built by the first loop of `update_grid`: every live cell
together with its 8 Moore-offset cells. -/
def candidates (grid : Finset Coord) : Finset Coord :=
  grid.biUnion fun coord =>
    insert coord (neighbour_offsets.map (addCoord coord)).toFinset

/-- The per-candidate rule body of `update_grid`'s second loop: survive on 2 or
3 neighbours when alive, be born on exactly 3 when dead. -/
def alive_next (grid : Finset Coord) (coord : Coord) : Bool :=
  let neighbours := count_active_neighbours grid coord
  if coord ∈ grid then neighbours == 2 || neighbours == 3
  else neighbours == 3

/-- `update_grid`'s effect on the cell store: filter the candidate set by the
B3/S23 rule, building an entirely new grid. -/
def update_grid (grid : Finset Coord) : Finset Coord :=
  (candidates grid).filter fun coord => alive_next grid coord = true

/-- The engine state touched by `update_grid` and the UI handlers: the grid,
the `long long` generation counter, the pause flag and the step rate.
The step rate is a C `float`; it is carried here as a rational so that the
states can be compared, with the literals `0.2f` etc. modelled by the same
constant wherever the source uses the same literal. -/
structure Engine where
  grid : Finset Coord
  generation : Int
  paused : Bool
  step_rate : Rat

/-- `update_grid(grid, generation)`: replace the grid and do `generation++`. -/
def advance (s : Engine) : Engine :=
  { s with grid := update_grid s.grid, generation := s.generation + 1 }

/-- The freshly-constructed state of `main`: empty grid, generation 0,
paused, step rate `0.2f`. -/
def initEngine : Engine :=
  { grid := ∅, generation := 0, paused := true, step_rate := 0.2 }

/-- The `KEY_R` branch of `handle_ui_input`: clear the grid, pause, zero the
generation, restore the default rate.  (The camera fields it also resets
belong to the excluded presentation layer.) -/
def reset (s : Engine) : Engine :=
  { s with grid := ∅, paused := true, generation := 0, step_rate := 0.2 }

/-- The state of `handle_mouse_interaction`: the grid it mutates and the three
function-local `static` variables. -/
structure PaintState where
  grid : Finset Coord
  is_painting : Bool
  paint_mode_is_drawing : Bool
  cells_modified_this_stroke : Finset Coord
deriving DecidableEq

/-- The `IsMouseButtonPressed(MOUSE_BUTTON_LEFT)` branch: begin a stroke, clear
the touched set, toggle the target cell, record the mode, mark the cell
touched. -/
def toggle_start (s : PaintState) (c : Coord) : PaintState :=
  if c ∈ s.grid then
    { grid := s.grid.erase c, is_painting := true, paint_mode_is_drawing := false,
      cells_modified_this_stroke := {c} }
  else
    { grid := insert c s.grid, is_painting := true, paint_mode_is_drawing := true,
      cells_modified_this_stroke := {c} }

/-- The `is_painting && IsMouseButtonDown(MOUSE_BUTTON_LEFT)` branch: if the
cell was not yet touched this stroke, apply the recorded mode and mark it
touched. -/
def continue_stroke (s : PaintState) (c : Coord) : PaintState :=
  if s.is_painting then
    if c ∈ s.cells_modified_this_stroke then s
    else
      { s with
        grid := if s.paint_mode_is_drawing then insert c s.grid else s.grid.erase c,
        cells_modified_this_stroke := insert c s.cells_modified_this_stroke }
  else s

/-- The `IsMouseButtonReleased(MOUSE_BUTTON_LEFT)` branch: end the stroke. -/
def end_stroke (s : PaintState) : PaintState := { s with is_painting := false }

/-- `std::hash<int>` as implemented by libstdc++/libc++: the value cast to
`size_t` (64-bit, sign-extending), i.e. reduction modulo 2^64. -/
def hash_int (n : Int) : Nat := (n % 2 ^ 64).toNat

/-- `CoordHash::operator()`: `hash_1 ^ (hash_2 << 1)` in `size_t` arithmetic
(the shift wraps modulo 2^64; xor of two values below 2^64 stays below). -/
def CoordHash (p : Coord) : Nat :=
  hash_int p.1 ^^^ ((hash_int p.2 <<< 1) % 2 ^ 64)

/-- A 3-cell horizontal blinker. -/
def blinkerG : Finset Coord := {((0 : Int), (0 : Int)), (1, 0), (2, 0)}

/-- A concrete paint-adapter state that is mid-stroke (Stroking). -/
def strokingState : PaintState :=
  { grid := ∅, is_painting := true, paint_mode_is_drawing := true,
    cells_modified_this_stroke := {((5 : Int), (5 : Int))} }

/-- A small concrete grid used to instantiate the step-rule theorem. -/
def wGrid : Finset Coord := {((0 : Int), (0 : Int)), (1, 0), (0, 1)}

/-- A concrete dead cell with three live neighbours in `wGrid`. -/
def wCell : Coord := (1, 1)

/-- C2: one `advance` call increments the generation counter to exactly
`n + 1`, for every grid, pause flag, rate and counter value — in particular
regardless of population. -/
theorem advance_increments_generation (s : Engine) :
    (advance s).generation = s.generation + 1 := rfl

/-- C3: the horizontal 3-cell blinker has period 2: two steps return the
original grid, one step changes it. -/
theorem blinker_period_two :
    update_grid (update_grid blinkerG) = blinkerG ∧ update_grid blinkerG ≠ blinkerG := by
  decide

/-- C7: the `KEY_R` reset command turns every engine state into the
freshly-constructed initial state (empty grid, generation 0, default rate,
paused). -/
theorem reset_eq_init (s : Engine) : reset s = initEngine := rfl

/-- C4: `continue_stroke` is idempotent — for every grid, stroke mode and
touched-set state, processing the same cell twice yields the same grid and
stroke state as processing it once. -/
theorem continue_stroke_idempotent (s : PaintState) (c : Coord) :
    continue_stroke (continue_stroke s c) c = continue_stroke s c := by
  unfold continue_stroke
  cases hp : s.is_painting with
  | false => simp [hp]
  | true =>
    by_cases ht : c ∈ s.cells_modified_this_stroke
    · simp [hp, ht]
    · simp [hp, ht]

/-- C5: toggle is its own inverse across separate strokes — `toggle_start` on
cell `c` flips its alive/dead status (removing a live cell, adding a dead
one), and after `end_stroke` a second `toggle_start` on `c` restores the
original grid. -/
theorem toggle_start_inverse (s : PaintState) (c : Coord) :
    (toggle_start (end_stroke (toggle_start s c)) c).grid = s.grid ∧
    (c ∈ (toggle_start s c).grid ↔ c ∉ s.grid) := by
  by_cases h : c ∈ s.grid
  · simp [toggle_start, end_stroke, h, Finset.not_mem_erase, Finset.insert_erase h]
  · simp [toggle_start, end_stroke, h, Finset.erase_insert h]

/-- C10: coordinates are 32-bit machine ints, so the Moore-offset arithmetic
in candidate construction and neighbour counting wraps at the `int` extremes:
the offset of a live cell at `INT_MAX` lands at `INT_MIN`, which therefore
appears in the candidate set and is counted as a neighbour. -/
theorem coords_wrap_at_int_extremes :
    wrap32 (INT_MAX + 1) = INT_MIN ∧ wrap32 (INT_MIN - 1) = INT_MAX ∧
    ((INT_MIN, (0 : Int)) ∈ candidates {((INT_MAX : Int), (0 : Int))}) ∧
    count_active_neighbours {((INT_MIN : Int), (0 : Int))} (INT_MAX, 0) = 1 := by
  decide

/-- C8 counterexample: from a Stroking state, a `toggle_start` event is
neither disallowed nor a no-op — it mutates the state (restarting the stroke)
and lands back in Stroking. -/
theorem toggle_start_nested_counterexample :
    strokingState.is_painting = true ∧
    toggle_start strokingState ((0 : Int), (0 : Int)) ≠ strokingState ∧
    (toggle_start strokingState ((0 : Int), (0 : Int))).is_painting = true := by
  decide

/-- C8 (amended): when the adapter is already Stroking, `toggle_start`
silently restarts the stroke: it behaves exactly as an implicit `end_stroke`
followed by a fresh stroke start — the result is again Stroking, the touched
set is reset to the new cell alone, and the cell is toggled. -/
theorem toggle_start_restarts (s : PaintState) (c : Coord)
    (_h : s.is_painting = true) :
    toggle_start s c = toggle_start (end_stroke s) c ∧
    (toggle_start s c).is_painting = true ∧
    (toggle_start s c).cells_modified_this_stroke = {c} ∧
    (toggle_start s c).grid = (if c ∈ s.grid then s.grid.erase c else insert c s.grid) := by
  by_cases hg : c ∈ s.grid <;> simp [toggle_start, end_stroke, hg]

/-- C8 witness: the restart behaviour at a concrete Stroking state. -/
theorem toggle_start_restarts_witness :
    toggle_start strokingState ((0 : Int), (0 : Int))
      = toggle_start (end_stroke strokingState) ((0 : Int), (0 : Int)) ∧
    (toggle_start strokingState ((0 : Int), (0 : Int))).is_painting = true ∧
    (toggle_start strokingState ((0 : Int), (0 : Int))).cells_modified_this_stroke
      = {((0 : Int), (0 : Int))} ∧
    (toggle_start strokingState ((0 : Int), (0 : Int))).grid
      = (if ((0 : Int), (0 : Int)) ∈ strokingState.grid
          then strokingState.grid.erase ((0 : Int), (0 : Int))
          else insert ((0 : Int), (0 : Int)) strokingState.grid) :=
  toggle_start_restarts strokingState ((0 : Int), (0 : Int)) (by decide)

theorem wrap32_eq_self {n : Int} (h : InRangeInt n) : wrap32 n = n := by
  obtain ⟨h1, h2⟩ := h
  simp only [INT_MIN, INT_MAX] at h1 h2
  unfold wrap32
  omega

theorem wrap32_add_left (a b : Int) : wrap32 (wrap32 a + b) = wrap32 (a + b) := by
  unfold wrap32
  omega

theorem addCoord_cancel {c : Coord} (hc : InRangeCoord c) (o : Coord) :
    addCoord (addCoord c o) (-o.1, -o.2) = c := by
  obtain ⟨x, y⟩ := c
  obtain ⟨hx, hy⟩ := hc
  simp only [addCoord, Prod.mk.injEq]
  constructor
  · rw [wrap32_add_left]
    have : x + o.1 + -o.1 = x := by ring
    rw [this]
    exact wrap32_eq_self hx
  · rw [wrap32_add_left]
    have : y + o.2 + -o.2 = y := by ring
    rw [this]
    exact wrap32_eq_self hy

theorem neg_offset_mem {o : Coord} (ho : o ∈ neighbour_offsets) :
    ((-o.1, -o.2) : Coord) ∈ neighbour_offsets := by
  simp only [neighbour_offsets, List.mem_cons, List.not_mem_nil, or_false] at ho
  rcases ho with rfl | rfl | rfl | rfl | rfl | rfl | rfl | rfl <;> decide

theorem mem_candidates_self {G : Finset Coord} {c : Coord} (h : c ∈ G) :
    c ∈ candidates G := by
  rw [candidates, Finset.mem_biUnion]
  exact ⟨c, h, Finset.mem_insert_self _ _⟩

theorem exists_neighbour_of_count_pos {G : Finset Coord} {c : Coord}
    (h : 0 < count_active_neighbours G c) :
    ∃ o ∈ neighbour_offsets, addCoord c o ∈ G := by
  rw [count_active_neighbours] at h
  rw [List.length_pos] at h
  obtain ⟨o, ho⟩ := List.exists_mem_of_ne_nil _ h
  rw [List.mem_filter] at ho
  exact ⟨o, ho.1, of_decide_eq_true ho.2⟩

theorem mem_candidates_of_neighbour {G : Finset Coord} {c : Coord}
    (hc : InRangeCoord c) {o : Coord} (ho : o ∈ neighbour_offsets)
    (hn : addCoord c o ∈ G) : c ∈ candidates G := by
  rw [candidates, Finset.mem_biUnion]
  refine ⟨addCoord c o, hn, Finset.mem_insert_of_mem ?_⟩
  rw [List.mem_toFinset, List.mem_map]
  exact ⟨(-o.1, -o.2), neg_offset_mem ho, addCoord_cancel hc o⟩

/-- C1: for every grid and every (32-bit representable) cell `c`, `c` is
alive after `update_grid` iff it was alive with exactly 2 or 3 Moore
neighbours or dead with exactly 3; moreover every cell outside the candidate
set is dead afterwards. -/
theorem advance_implements_B3S23 (G : Finset Coord) (c : Coord)
    (hc : InRangeCoord c) :
    (c ∈ update_grid G ↔
      (c ∈ G ∧ (count_active_neighbours G c = 2 ∨ count_active_neighbours G c = 3)) ∨
      (c ∉ G ∧ count_active_neighbours G c = 3)) ∧
    (c ∉ candidates G → c ∉ update_grid G) := by
  have hout : c ∉ candidates G → c ∉ update_grid G := by
    intro hx hmem
    exact hx (Finset.mem_filter.mp hmem).1
  refine ⟨⟨?_, ?_⟩, hout⟩
  · intro hmem
    have hrule := (Finset.mem_filter.mp hmem).2
    by_cases hin : c ∈ G
    · simp only [alive_next, hin, if_true, Bool.or_eq_true, beq_iff_eq] at hrule
      exact Or.inl ⟨hin, hrule⟩
    · simp only [alive_next, hin, if_false, beq_iff_eq] at hrule
      exact Or.inr ⟨hin, hrule⟩
  · intro hrule
    rw [update_grid, Finset.mem_filter]
    rcases hrule with ⟨hin, hcnt⟩ | ⟨hnin, hcnt⟩
    · refine ⟨mem_candidates_self hin, ?_⟩
      simp only [alive_next, hin, if_true, Bool.or_eq_true, beq_iff_eq]
      exact hcnt
    · have hpos : 0 < count_active_neighbours G c := by omega
      obtain ⟨o, ho, hno⟩ := exists_neighbour_of_count_pos hpos
      refine ⟨mem_candidates_of_neighbour hc ho hno, ?_⟩
      simp only [alive_next, hnin, if_false, beq_iff_eq]
      exact hcnt

/-- C1 witness: the rule at the dead cell (1, 1) of a concrete 3-cell grid. -/
theorem advance_implements_B3S23_witness :
    (wCell ∈ update_grid wGrid ↔
      (wCell ∈ wGrid ∧
        (count_active_neighbours wGrid wCell = 2 ∨
         count_active_neighbours wGrid wCell = 3)) ∨
      (wCell ∉ wGrid ∧ count_active_neighbours wGrid wCell = 3)) ∧
    (wCell ∉ candidates wGrid → wCell ∉ update_grid wGrid) :=
  advance_implements_B3S23 wGrid wCell (by decide)

theorem hash_int_lt (n : Int) : hash_int n < 2 ^ 64 := by
  unfold hash_int
  have h64 : (2 : Int) ^ 64 = 18446744073709551616 := by norm_num
  have h64n : (2 : Nat) ^ 64 = 18446744073709551616 := by norm_num
  rw [h64, h64n]
  omega

theorem hash_int_inj {a b : Int} (ha : InRangeInt a) (hb : InRangeInt b)
    (h : hash_int a = hash_int b) : a = b := by
  unfold hash_int at h
  obtain ⟨ha1, ha2⟩ := ha
  obtain ⟨hb1, hb2⟩ := hb
  simp only [INT_MIN, INT_MAX] at ha1 ha2 hb1 hb2
  have h64 : (2 : Int) ^ 64 = 18446744073709551616 := by norm_num
  rw [h64] at h
  omega

theorem xor_shift_cancel {x y : Nat} (hx : x < 2 ^ 64) (hy : y < 2 ^ 64)
    (h : x ^^^ ((y <<< 1) % 2 ^ 64) = y ^^^ ((x <<< 1) % 2 ^ 64)) : x = y := by
  have hb : ∀ i : Nat,
      (x.testBit i).xor (decide (i < 64) && (decide (1 ≤ i) && y.testBit (i - 1)))
      = (y.testBit i).xor (decide (i < 64) && (decide (1 ≤ i) && x.testBit (i - 1))) := by
    intro i
    have hcongr := congrArg (fun n => n.testBit i) h
    simpa only [Nat.testBit_xor, Nat.testBit_mod_two_pow, Nat.testBit_shiftLeft]
      using hcongr
  have key : ∀ i, i < 64 → x.testBit i = y.testBit i := by
    intro i
    induction i with
    | zero =>
      intro _
      simpa using hb 0
    | succ k ih =>
      intro hk
      have hbk := hb (k + 1)
      simp only [Nat.add_sub_cancel, decide_eq_true hk,
        decide_eq_true (Nat.le_add_left 1 k), Bool.true_and] at hbk
      have hkk : x.testBit k = y.testBit k := ih (by omega)
      rw [hkk] at hbk
      cases hx1 : x.testBit (k + 1) <;> cases hy1 : y.testBit (k + 1) <;>
        cases hyk : y.testBit k <;> simp_all
  apply Nat.eq_of_testBit_eq
  intro i
  by_cases hi : i < 64
  · exact key i hi
  · have hle : (2 : Nat) ^ 64 ≤ 2 ^ i := Nat.pow_le_pow_right (by norm_num) (by omega)
    rw [Nat.testBit_eq_false_of_lt (lt_of_lt_of_le hx hle),
      Nat.testBit_eq_false_of_lt (lt_of_lt_of_le hy hle)]

/-- C9 counterexample: the swapped pair (0, 1) / (1, 0) does not collide under
the source's `CoordHash`, refuting "collides for every swapped pair". -/
theorem coordhash_swap_counterexample :
    ((0 : Int) ≠ (1 : Int)) ∧
    CoordHash ((0 : Int), (1 : Int)) ≠ CoordHash ((1 : Int), (0 : Int)) := by
  decide

/-- C9 (amended): the source's `CoordHash` never collides on swapped pairs —
for all distinct representable `int` coordinates `a ≠ b`,
`CoordHash (a, b) ≠ CoordHash (b, a)` (the `<< 1` breaks the symmetry of the
plain xor). -/
theorem coordhash_swap_no_collision (a b : Int) (ha : InRangeInt a)
    (hb : InRangeInt b) (hne : a ≠ b) :
    CoordHash (a, b) ≠ CoordHash (b, a) := by
  intro h
  unfold CoordHash at h
  exact hne (hash_int_inj ha hb (xor_shift_cancel (hash_int_lt a) (hash_int_lt b) h))

/-- C9 witness: the no-collision theorem at the concrete pair (0, 1). -/
theorem coordhash_swap_no_collision_witness :
    CoordHash ((0 : Int), (1 : Int)) ≠ CoordHash ((1 : Int), (0 : Int)) :=
  coordhash_swap_no_collision 0 1 (by decide) (by decide) (by decide)
